import Mathlib

/-
Shallow embedding of `src/SeatBookingSystem.py` (class `SeatBookingSystem`):
the seat grid, the booking ledger, and the operations `is_seat_valid`,
`check_availability`, `book_seat`, `free_seat` and
`generate_unique_booking_reference`.

Modelling decisions, each tied to a line of the source:
* Coordinates are `Int`: Python `int` arguments may be negative, and Python
  list indexing wraps indices in `[-len, 0)` to `len + i` before raising
  `IndexError` outside `[-len, len)`.  `pyIdx` models exactly this.
* A cell is the raw string Python stores: `"F"`, `"X"`, `"S"`, or an
  8-character booking reference.
* `__init__` builds `self.seating` as 7 fresh rows, then rebinds row 3, and
  then executes `self.seating[5:7] = [['F','F','S','S']] * 2`, which makes
  logical rows 5 and 6 two references to ONE list object.  After `__init__`
  no statement ever rebinds a row (the operations only assign single cells),
  so the heap shape is fixed: 6 distinct row objects, with logical rows 5 and
  6 both mapped (by `physOf`) to physical row 5.
* `self.bookings` is a dict from reference string to a record; it is modelled
  as an association list with dict-style lookup/insert/delete.
* `random.choices(string.ascii_uppercase + string.digits, k=8)` always yields
  8 symbols of the 36-character alphabet; one draw is a function
  `Fin 8 → Fin 36` and the pseudo-random source is a stream of draws.  The
  `while True` rejection loop is observed for `fuel` iterations; `none` means
  the loop was not seen to terminate within `fuel` draws.
* The color-coded message strings returned by the Python methods are
  abstracted to structured results, one constructor per distinct message:
  `Invalid` = "Invalid seat selection.", `Available` = "Seat is available",
  `Taken _` = "Seat is taken. ---INFO--- ...", `SeatUnavailable` =
  "Seat cannot be booked.", `Booked r` = "Seat booked successfully with
  reference r.", `Freed` = "Seat has been freed.", `AlreadyFreeOrInvalid` =
  "Seat is already free or cannot be freed.", `BookingNotFound` =
  "Booking reference not found.".
-/

deriving instance DecidableEq for Except

namespace SeatBooking

/-- Python runtime errors the modelled code can raise: `IndexError` from list
indexing (caught inside `is_seat_valid`), `KeyError` from
`self.bookings[seat]` on a reference missing from the dict. -/
inductive PyErr where
  | indexError
  | keyError
deriving DecidableEq, Repr

/-- Python list indexing for a list of length `n` with an arbitrary integer
index: indices in `[0, n)` are used directly, indices in `[-n, 0)` wrap to
`n + i`, and anything else raises `IndexError` (modelled as `none`). -/
def pyIdx (n : Nat) (i : Int) : Option (Fin n) :=
  if h : 0 ≤ i ∧ i < (n : Int) then
    some ⟨i.toNat, by omega⟩
  else if h2 : -(n : Int) ≤ i ∧ i < 0 then
    some ⟨(i + (n : Int)).toNat, by omega⟩
  else
    none

/-- One entry of the `self.bookings` dict: the record built in `book_seat`
lines 150–156 of the source.  `seat_row` / `seat_column` store the raw
arguments, which may be any integers. -/
structure Booking where
  passport_number : String
  first_name : String
  last_name : String
  seat_row : Int
  seat_column : Int
deriving DecidableEq, Repr

/-- The `self.bookings` dict, reference string → booking record, as an
association list whose keys are unique. -/
abbrev Ledger := List (String × Booking)

/-- Dict lookup `d[k]` / `k in d` (first matching key). -/
def lookupRef : Ledger → String → Option Booking
  | [], _ => none
  | (k, v) :: rest, r => if k = r then some v else lookupRef rest r

/-- Dict deletion `del d[k]` (call sites guard with `k in d` first). -/
def eraseRef (l : Ledger) (r : String) : Ledger :=
  l.filter (fun kv => kv.1 != r)

/-- Dict assignment `d[k] = v`. -/
def insertRef (l : Ledger) (r : String) (b : Booking) : Ledger :=
  (r, b) :: eraseRef l r

/-- Physical row objects are indexed by `Fin 6`; `physOf` maps a logical row index
of the 7-row grid to its row object.  Logical rows 5 and 6 share object 5
because `self.seating[5:7] = [['F','F','S','S']] * 2` stores two references
to one list. -/
def physOf : Fin 7 → Fin 6 :=
  fun r => if h : r.val ≤ 5 then ⟨r.val, by omega⟩ else ⟨5, by omega⟩

/-- The mutable state of a `SeatBookingSystem` object: the 6 physical row
objects of `self.seating` (each of 4 cells) and the `self.bookings` dict. -/
structure SysState where
  seating : Fin 6 → Fin 4 → String
  bookings : Ledger

instance : DecidableEq SysState :=
  fun a b =>
    decidable_of_iff (a.seating = b.seating ∧ a.bookings = b.bookings)
      (by cases a; cases b; simp)

/-- Seating contents established by `__init__`: physical rows 0–2 and 4 all
`"F"`, physical row 3 all `"X"` (aisle), physical row 5 (shared by logical
rows 5 and 6) `["F","F","S","S"]`. -/
def initSeating : Fin 6 → Fin 4 → String :=
  fun r c =>
    if r.val = 3 then "X"
    else if r.val = 5 then (if c.val ≤ 1 then "F" else "S")
    else "F"

/-- The state right after `SeatBookingSystem.__init__`: the grid above and an
empty bookings dict. -/
def initState : SysState :=
  ⟨initSeating, []⟩

/-- Evaluation of the expression `self.seating[row][column]`: the row index is
resolved first (Python raises there before touching the column). -/
def getCellE (s : SysState) (row column : Int) : Except PyErr String :=
  match pyIdx 7 row with
  | none => .error .indexError
  | some r =>
    match pyIdx 4 column with
    | none => .error .indexError
    | some c => .ok (s.seating (physOf r) c)

/-- The logical 7×4 view of one cell: `some` value, or `none` where indexing
would raise. -/
def getCellL (s : SysState) (row column : Int) : Option String :=
  (getCellE s row column).toOption

/-- Statement `self.seating[row][column] = v`.  It mutates the row OBJECT, so
writing through logical row 5 or 6 changes both views.  Call sites only reach
it with indices that resolve (the fallthrough branch is unreachable there). -/
def setCellAt (s : SysState) (row column : Int) (v : String) : SysState :=
  match pyIdx 7 row, pyIdx 4 column with
  | some r, some c =>
    { s with seating := fun pr pc => if pr = physOf r ∧ pc = c then v else s.seating pr pc }
  | _, _ => s

/-- Model of `is_seat_valid(row, column)` (the row/column path, source lines
94–98) with the exception behaviour explicit: the `try` block evaluates
`self.seating[row][column] not in ('X', 'S')`, and `except IndexError`
returns `False`.  Any error other than `IndexError` would propagate. -/
def is_seat_valid_exc (s : SysState) (row column : Int) : Except PyErr Bool :=
  match getCellE s row column with
  | .ok v => .ok (!(v == "X" || v == "S"))
  | .error .indexError => .ok false
  | .error e => .error e

/-- The boolean `is_seat_valid` computes (its only error source is the
indexing, and that is caught). -/
def is_seat_valid (s : SysState) (row column : Int) : Bool :=
  ((is_seat_valid_exc s row column).toOption).getD false

/-- Structured result of `check_availability`. -/
inductive QueryResult where
  | Invalid
  | Available
  | Taken (reference passport_number first_name last_name : String)
deriving DecidableEq, Repr

/-- Model of `check_availability(row, column)` (source lines 100–126).  On a
taken seat it reads `self.bookings[seat]`, which raises `KeyError` when the
reference is missing from the dict (corrupted state). -/
def check_availability (s : SysState) (row column : Int) : Except PyErr QueryResult :=
  if !(is_seat_valid s row column) then .ok .Invalid
  else
    match getCellE s row column with
    | .error e => .error e
    | .ok seat =>
      if seat = "F" then .ok .Available
      else
        match lookupRef s.bookings seat with
        | some b => .ok (.Taken seat b.passport_number b.first_name b.last_name)
        | none => .error .keyError

/-- One draw of `random.choices(string.ascii_uppercase + string.digits, k=8)`:
eight independent symbols, each an index into the 36-character alphabet. -/
abbrev Draw := Fin 8 → Fin 36

/-- Character `i` of `string.ascii_uppercase + string.digits`: indices 0–25
are `'A'`–`'Z'`, indices 26–35 are `'0'`–`'9'`. -/
def alphabetChar (i : Fin 36) : Char :=
  if i.val < 26 then Char.ofNat (65 + i.val) else Char.ofNat (48 + (i.val - 26))

/-- The string `''.join(random.choices(...))` built from one draw. -/
def encodeRef (d : Draw) : String :=
  ⟨(List.finRange 8).map (fun k => alphabetChar (d k))⟩

/-- Model of `generate_unique_booking_reference` (source lines 58–69): draw,
return the draw if its encoding is not a key of `bookings`, otherwise retry
with the rest of the stream.  `fuel` bounds the iterations we observe; `none`
means the `while True` loop was not seen to terminate within `fuel` draws. -/
def generate_unique_booking_reference (bookings : Ledger) (rng : Nat → Draw) :
    Nat → Option String
  | 0 => none
  | fuel + 1 =>
    let reference := encodeRef (rng 0)
    if lookupRef bookings reference = none then some reference
    else generate_unique_booking_reference bookings (fun i => rng (i + 1)) fuel

/-- Structured result of `book_seat`. -/
inductive BookResult where
  | SeatUnavailable
  | Booked (reference : String)
deriving DecidableEq, Repr

/-- Model of `book_seat` (source lines 128–157).  The guard is
`not self.is_seat_valid(row, column) or self.seating[row][column] != 'F'`;
when `is_seat_valid` returned `True` the second indexing cannot raise, so the
`.error` branch below is unreachable (and proved so).  On success the cell is
set to the fresh reference and the dict entry is inserted. -/
def book_seat (s : SysState) (row column : Int)
    (passport_number first_name last_name : String)
    (rng : Nat → Draw) (fuel : Nat) : Option (BookResult × SysState) :=
  if !(is_seat_valid s row column) then some (.SeatUnavailable, s)
  else
    match getCellE s row column with
    | .error _ => some (.SeatUnavailable, s)
    | .ok v =>
      if v ≠ "F" then some (.SeatUnavailable, s)
      else
        match generate_unique_booking_reference s.bookings rng fuel with
        | none => none
        | some booking_reference =>
          some (.Booked booking_reference,
            { setCellAt s row column booking_reference with
                bookings := insertRef s.bookings booking_reference
                  ⟨passport_number, first_name, last_name, row, column⟩ })

/-- Structured result of `free_seat`. -/
inductive FreeResult where
  | Freed
  | AlreadyFreeOrInvalid
  | BookingNotFound
deriving DecidableEq, Repr

/-- Model of `free_seat` (source lines 159–182).  The guard is
`not self.is_seat_valid(row, column) or self.seating[row][column] == 'F'`;
as in `book_seat` the `.error` branch is unreachable.  The dict entry is
deleted and the cell reset only when the reference is a key of the dict;
otherwise the state is untouched and the result is `BookingNotFound`. -/
def free_seat (s : SysState) (row column : Int) : FreeResult × SysState :=
  if !(is_seat_valid s row column) then (.AlreadyFreeOrInvalid, s)
  else
    match getCellE s row column with
    | .error _ => (.AlreadyFreeOrInvalid, s)
    | .ok v =>
      if v = "F" then (.AlreadyFreeOrInvalid, s)
      else
        match lookupRef s.bookings v with
        | some _ =>
          (.Freed, { setCellAt s row column "F" with bookings := eraseRef s.bookings v })
        | none => (.BookingNotFound, s)

/-- Scenario harness for the spec's uniqueness property: generate a reference
with `generate_unique_booking_reference`, record it in the ledger (as
`book_seat` does), and repeat, `n` times, each call reading a fresh stream
`rngs k` of draws. -/
def genMany (bookings : Ledger) (rngs : Nat → Nat → Draw) (b : Booking) (fuel : Nat) :
    Nat → Option (List String)
  | 0 => some []
  | n + 1 =>
    match generate_unique_booking_reference bookings (rngs 0) fuel with
    | none => none
    | some r =>
      (genMany (insertRef bookings r b) (fun k => rngs (k + 1)) b fuel n).map
        (fun l => r :: l)

/-- States reachable from the freshly constructed system by any sequence of
bookings and frees (`check_availability` and `is_seat_valid` never mutate). -/
inductive Reachable : SysState → Prop where
  | init : Reachable initState
  | book {s s' : SysState} {row column : Int} {pn fn ln : String}
      {rng : Nat → Draw} {fuel : Nat} {res : BookResult} :
      Reachable s → book_seat s row column pn fn ln rng fuel = some (res, s') →
      Reachable s'
  | free {s s' : SysState} {row column : Int} {res : FreeResult} :
      Reachable s → free_seat s row column = (res, s') → Reachable s'

/-- The draw whose encoding is the reference string `"AAAAAAAA"`. -/
def constDraw : Draw :=
  fun _ => ⟨0, by omega⟩

/-- A pseudo-random stream every draw of which encodes to `"AAAAAAAA"`. -/
def rngA : Nat → Draw :=
  fun _ => constDraw

/-- One stream per call: call `k` draws only the `k`-th alphabet symbol, so
successive calls see the strings `"AAAAAAAA"`, `"BBBBBBBB"`, ... . -/
def rngSeq : Nat → Nat → Draw :=
  fun k => fun _ => fun _ => ⟨k % 36, by omega⟩

/-- A throwaway booking record used by the uniqueness scenario. -/
def bkW : Booking :=
  ⟨"P", "A", "L", 0, 0⟩

/-- The state produced by booking seat (5, 0) of the fresh system. -/
def sAlias : SysState :=
  ((book_seat initState 5 0 "P" "A" "L" rngA 1).getD (BookResult.SeatUnavailable, initState)).2

/-- The state produced by booking seat (6, 0) of the fresh system. -/
def sBooked60 : SysState :=
  ((book_seat initState 6 0 "P" "A" "L" rngA 1).getD (BookResult.SeatUnavailable, initState)).2

/-- The state produced by booking seat (0, 0) of the fresh system with the
passenger data of the spec's concrete scenario. -/
def sBooked00 : SysState :=
  ((book_seat initState 0 0 "P123" "Ann" "Lee" rngA 1).getD (BookResult.SeatUnavailable, initState)).2

/-- A corrupted state: cell (0, 0) holds a reference that has no ledger
entry.  It is not reachable; `free_seat`'s contract for it is still defined. -/
def sCorrupt : SysState :=
  setCellAt initState 0 0 "ZZZZZZZZ"

/-! Helper lemmas about indexing, the ledger, and the reference generator. -/

theorem pyIdx_of_bounds {n : Nat} {i : Int} (h0 : 0 ≤ i) (hn : i < (n : Int)) :
    pyIdx n i = some ⟨i.toNat, by omega⟩ := by
  unfold pyIdx
  rw [dif_pos ⟨h0, hn⟩]

theorem getCellE_error_eq {s : SysState} {row column : Int} {e : PyErr}
    (h : getCellE s row column = .error e) : e = .indexError := by
  unfold getCellE at h
  cases h7 : pyIdx 7 row with
  | none => rw [h7] at h; exact (Except.error.inj h).symm
  | some r =>
    rw [h7] at h
    cases h4 : pyIdx 4 column with
    | none => rw [h4] at h; exact (Except.error.inj h).symm
    | some c => rw [h4] at h; exact absurd h (by simp)

theorem getCellE_ok_inv {s : SysState} {row column : Int} {v : String}
    (h : getCellE s row column = .ok v) :
    ∃ (r : Fin 7) (c : Fin 4),
      pyIdx 7 row = some r ∧ pyIdx 4 column = some c ∧ s.seating (physOf r) c = v := by
  unfold getCellE at h
  cases h7 : pyIdx 7 row with
  | none => rw [h7] at h; exact absurd h (by simp)
  | some r =>
    rw [h7] at h
    cases h4 : pyIdx 4 column with
    | none => rw [h4] at h; exact absurd h (by simp)
    | some c =>
      rw [h4] at h
      exact ⟨r, c, rfl, rfl, Except.ok.inj h⟩

theorem is_seat_valid_of_ok {s : SysState} {row column : Int} {v : String}
    (h : getCellE s row column = .ok v) (hX : v ≠ "X") (hS : v ≠ "S") :
    is_seat_valid s row column = true := by
  unfold is_seat_valid is_seat_valid_exc
  rw [h]
  simp [Except.toOption, hX, hS]

theorem setCellAt_bookings (s : SysState) (row column : Int) (v : String) :
    (setCellAt s row column v).bookings = s.bookings := by
  unfold setCellAt
  cases pyIdx 7 row <;> cases pyIdx 4 column <;> rfl

theorem getCellE_of_seating_set {s t : SysState} {row row' column : Int}
    {r r' : Fin 7} {c : Fin 4} {v : String}
    (hseat : t.seating = (setCellAt s row column v).seating)
    (h7 : pyIdx 7 row = some r) (h7' : pyIdx 7 row' = some r')
    (hphys : physOf r' = physOf r) (h4 : pyIdx 4 column = some c) :
    getCellE t row' column = .ok v := by
  unfold getCellE
  rw [hseat]
  unfold setCellAt
  rw [h7, h4, h7']
  simp [hphys]

theorem getCellL_of_seating_set {s t : SysState} {row row' column : Int}
    {r r' : Fin 7} {c : Fin 4} {v : String}
    (hseat : t.seating = (setCellAt s row column v).seating)
    (h7 : pyIdx 7 row = some r) (h7' : pyIdx 7 row' = some r')
    (hphys : physOf r' = physOf r) (h4 : pyIdx 4 column = some c) :
    getCellL t row' column = some v := by
  unfold getCellL
  rw [getCellE_of_seating_set hseat h7 h7' hphys h4]
  rfl

theorem lookupRef_insert_self (l : Ledger) (r : String) (b : Booking) :
    lookupRef (insertRef l r b) r = some b := by
  unfold insertRef lookupRef
  simp

theorem lookupRef_cons (k : String) (b : Booking) (rest : Ledger) (r : String) :
    lookupRef ((k, b) :: rest) r = if k = r then some b else lookupRef rest r :=
  rfl

theorem eraseRef_cons (kv : String × Booking) (rest : Ledger) (r : String) :
    eraseRef (kv :: rest) r =
      if kv.1 = r then eraseRef rest r else kv :: eraseRef rest r := by
  unfold eraseRef
  by_cases h : kv.1 = r
  · rw [if_pos h]
    simp [List.filter_cons, h]
  · rw [if_neg h]
    simp [List.filter_cons, h]

theorem lookupRef_erase_self (l : Ledger) (r : String) :
    lookupRef (eraseRef l r) r = none := by
  induction l with
  | nil => rfl
  | cons kv rest ih =>
    obtain ⟨k, b⟩ := kv
    rw [eraseRef_cons]
    by_cases h : k = r
    · rw [if_pos h]; exact ih
    · rw [if_neg h, lookupRef_cons, if_neg h]
      exact ih

theorem lookupRef_erase_ne (l : Ledger) (r x : String) (h : x ≠ r) :
    lookupRef (eraseRef l r) x = lookupRef l x := by
  induction l with
  | nil => rfl
  | cons kv rest ih =>
    obtain ⟨k, b⟩ := kv
    rw [eraseRef_cons]
    by_cases hk : k = r
    · rw [if_pos hk, lookupRef_cons, if_neg (by rw [hk]; exact fun e => h e.symm)]
      exact ih
    · rw [if_neg hk, lookupRef_cons, lookupRef_cons]
      by_cases hx : k = x
      · rw [if_pos hx, if_pos hx]
      · rw [if_neg hx, if_neg hx]
        exact ih

theorem lookupRef_insert_ne (l : Ledger) (r : String) (b : Booking) (x : String)
    (h : x ≠ r) : lookupRef (insertRef l r b) x = lookupRef l x := by
  unfold insertRef
  rw [lookupRef_cons, if_neg (fun e => h e.symm)]
  exact lookupRef_erase_ne l r x h

theorem encodeRef_length (d : Draw) : (encodeRef d).length = 8 := by
  unfold encodeRef
  simp [String.length]

theorem encodeRef_chars (d : Draw) :
    ∀ ch ∈ (encodeRef d).data, ('A' ≤ ch ∧ ch ≤ 'Z') ∨ ('0' ≤ ch ∧ ch ≤ '9') := by
  intro ch hch
  have hall : ∀ i : Fin 36, ('A' ≤ alphabetChar i ∧ alphabetChar i ≤ 'Z') ∨
      ('0' ≤ alphabetChar i ∧ alphabetChar i ≤ '9') := by decide
  unfold encodeRef at hch
  obtain ⟨k, hk, he⟩ := List.mem_map.mp hch
  exact he ▸ hall (d k)

theorem encodeRef_ne_X (d : Draw) : encodeRef d ≠ "X" := by
  intro h
  have h8 := encodeRef_length d
  rw [h] at h8
  exact absurd h8 (by decide)

theorem encodeRef_ne_S (d : Draw) : encodeRef d ≠ "S" := by
  intro h
  have h8 := encodeRef_length d
  rw [h] at h8
  exact absurd h8 (by decide)

theorem encodeRef_ne_F (d : Draw) : encodeRef d ≠ "F" := by
  intro h
  have h8 := encodeRef_length d
  rw [h] at h8
  exact absurd h8 (by decide)

theorem generate_some {bookings : Ledger} {rng : Nat → Draw} {fuel : Nat} {ref : String}
    (h : generate_unique_booking_reference bookings rng fuel = some ref) :
    lookupRef bookings ref = none ∧ ∃ i, ref = encodeRef (rng i) := by
  induction fuel generalizing rng with
  | zero => exact absurd h (by simp [generate_unique_booking_reference])
  | succ n ih =>
    rw [generate_unique_booking_reference] at h
    by_cases hc : lookupRef bookings (encodeRef (rng 0)) = none
    · rw [if_pos hc] at h
      have := Option.some.inj h
      exact this ▸ ⟨hc, 0, rfl⟩
    · rw [if_neg hc] at h
      obtain ⟨h1, i, h2⟩ := ih h
      exact ⟨h1, i + 1, h2⟩

theorem check_availability_free {s : SysState} {row column : Int}
    (hcell : getCellE s row column = .ok "F") :
    check_availability s row column = .ok .Available := by
  simp [check_availability, is_seat_valid_of_ok hcell (by decide) (by decide), hcell]

theorem check_availability_taken {s : SysState} {row column : Int} {v : String} {b : Booking}
    (hcell : getCellE s row column = .ok v)
    (hX : v ≠ "X") (hS : v ≠ "S") (hF : v ≠ "F")
    (hb : lookupRef s.bookings v = some b) :
    check_availability s row column =
      .ok (.Taken v b.passport_number b.first_name b.last_name) := by
  simp [check_availability, is_seat_valid_of_ok hcell hX hS, hcell, hF, hb]

theorem book_seat_free_eq {s : SysState} {row column : Int}
    {pn fn ln : String} {rng : Nat → Draw} {fuel : Nat} {ref : String}
    (hcell : getCellE s row column = .ok "F")
    (hgen : generate_unique_booking_reference s.bookings rng fuel = some ref) :
    book_seat s row column pn fn ln rng fuel =
      some (.Booked ref,
        { setCellAt s row column ref with
            bookings := insertRef s.bookings ref ⟨pn, fn, ln, row, column⟩ }) := by
  simp [book_seat, is_seat_valid_of_ok hcell (by decide) (by decide), hcell, hgen]

theorem book_seat_booked_inv {s s' : SysState} {row column : Int}
    {pn fn ln ref : String} {rng : Nat → Draw} {fuel : Nat}
    (h : book_seat s row column pn fn ln rng fuel = some (.Booked ref, s')) :
    getCellE s row column = .ok "F" ∧
    generate_unique_booking_reference s.bookings rng fuel = some ref ∧
    s' = { setCellAt s row column ref with
            bookings := insertRef s.bookings ref ⟨pn, fn, ln, row, column⟩ } := by
  unfold book_seat at h
  split at h
  · simp at h
  · split at h
    · simp at h
    · rename_i v hok
      split at h
      · simp at h
      · rename_i hvF
        rw [not_not.mp hvF] at hok
        split at h
        · simp at h
        · rename_i r hgen
          simp only [Option.some.injEq, Prod.mk.injEq, BookResult.Booked.injEq] at h
          obtain ⟨hr, hs⟩ := h
          subst hr
          exact ⟨hok, hgen, hs.symm⟩

theorem free_seat_booked_eq {s : SysState} {row column : Int} {v : String} {b : Booking}
    (hcell : getCellE s row column = .ok v)
    (hX : v ≠ "X") (hS : v ≠ "S") (hF : v ≠ "F")
    (hb : lookupRef s.bookings v = some b) :
    free_seat s row column =
      (.Freed, { setCellAt s row column "F" with bookings := eraseRef s.bookings v }) := by
  simp [free_seat, is_seat_valid_of_ok hcell hX hS, hcell, hF, hb]

theorem free_seat_freed_inv {s s' : SysState} {row column : Int}
    (h : free_seat s row column = (.Freed, s')) :
    ∃ (v : String) (b : Booking), getCellE s row column = .ok v ∧ v ≠ "F" ∧
      lookupRef s.bookings v = some b ∧
      s' = { setCellAt s row column "F" with bookings := eraseRef s.bookings v } := by
  unfold free_seat at h
  split at h
  · simp at h
  · split at h
    · simp at h
    · rename_i v hok
      split at h
      · simp at h
      · rename_i hvF
        split at h
        · rename_i b hb
          simp only [Prod.mk.injEq] at h
          exact ⟨v, b, hok, hvF, hb, h.2.symm⟩
        · simp at h

theorem pyIdx_seven_five : pyIdx 7 (5 : Int) = some ⟨5, by omega⟩ := by
  decide

theorem pyIdx_seven_six : pyIdx 7 (6 : Int) = some ⟨6, by omega⟩ := by
  decide

theorem physOf_six_eq_five : physOf ⟨6, by omega⟩ = physOf ⟨5, by omega⟩ := by
  decide

/-! Claim theorems. -/

/-- C9: for every state and every pair of integer coordinates — negative or
too large included — `is_seat_valid` completes without an uncaught exception
and returns a boolean: the exception-explicit model always yields
`Except.ok` of the boolean that `is_seat_valid` computes. -/
theorem is_seat_valid_never_raises (s : SysState) (row column : Int) :
    is_seat_valid_exc s row column = Except.ok (is_seat_valid s row column) := by
  unfold is_seat_valid is_seat_valid_exc
  cases hc : getCellE s row column with
  | ok v => rfl
  | error e =>
    have he := getCellE_error_eq hc
    subst he
    rfl

/-- C2 fails on the code: the pair (-1, 0) lies outside [0, 7) × [0, 4), yet
Python's negative-index wrapping makes `is_seat_valid` read
`seating[6][0] = "F"` and return `True`, and makes `check_availability`
report `Available` instead of `Invalid`, already in the freshly constructed
state. -/
theorem neg_index_wraps_eval :
    ¬(0 ≤ (-1 : Int)) ∧
    is_seat_valid initState (-1) 0 = true ∧
    check_availability initState (-1) 0 = Except.ok QueryResult.Available := by
  decide

/-- C3 fails on the code: booking at the out-of-bounds address (-1, 0) of the
fresh system does not return `SeatUnavailable`; it succeeds with a reference
and mutates both the grid (cell (6, 0) becomes booked) and the ledger. -/
theorem book_out_of_bounds_mutates_eval :
    initState.bookings = [] ∧
    getCellL initState 6 0 = some "F" ∧
    (book_seat initState (-1) 0 "P" "A" "L" rngA 1).map
        (fun p => (p.1, p.2.bookings.map Prod.fst, getCellL p.2 6 0)) =
      some (BookResult.Booked "AAAAAAAA", ["AAAAAAAA"], some "AAAAAAAA") := by
  decide

/-- C4: booking an in-bounds `Free` seat with any passenger strings succeeds
(the hypothesis on `generate_unique_booking_reference` states that the
rejection-sampling loop terminates, with `ref` its result), and an
immediately following `check_availability` on the same coordinates reports
`Taken` carrying exactly the supplied passenger fields. -/
theorem book_free_then_check_taken {s : SysState} {row column : Int}
    {pn fn ln : String} {rng : Nat → Draw} {fuel : Nat} {ref : String}
    (hrow0 : 0 ≤ row) (hrow7 : row < 7) (hcol0 : 0 ≤ column) (hcol4 : column < 4)
    (hfree : getCellE s row column = .ok "F")
    (hgen : generate_unique_booking_reference s.bookings rng fuel = some ref) :
    ∃ s', book_seat s row column pn fn ln rng fuel = some (.Booked ref, s') ∧
      check_availability s' row column = .ok (.Taken ref pn fn ln) := by
  obtain ⟨hfresh, i, hi⟩ := generate_some hgen
  have h7 : pyIdx 7 row = some ⟨row.toNat, by omega⟩ := pyIdx_of_bounds hrow0 (by exact_mod_cast hrow7)
  have h4 : pyIdx 4 column = some ⟨column.toNat, by omega⟩ := pyIdx_of_bounds hcol0 (by exact_mod_cast hcol4)
  refine ⟨_, book_seat_free_eq hfree hgen, ?_⟩
  have hcell' : getCellE
      { setCellAt s row column ref with
          bookings := insertRef s.bookings ref ⟨pn, fn, ln, row, column⟩ } row column =
      .ok ref :=
    getCellE_of_seating_set rfl h7 h7 rfl h4
  have hb : lookupRef
      ({ setCellAt s row column ref with
          bookings := insertRef s.bookings ref ⟨pn, fn, ln, row, column⟩ } : SysState).bookings
      ref = some ⟨pn, fn, ln, row, column⟩ :=
    lookupRef_insert_self s.bookings ref ⟨pn, fn, ln, row, column⟩
  exact check_availability_taken hcell'
    (by rw [hi]; exact encodeRef_ne_X (rng i))
    (by rw [hi]; exact encodeRef_ne_S (rng i))
    (by rw [hi]; exact encodeRef_ne_F (rng i)) hb

/-- C5: freeing a seat whose cell holds a booking reference present in the
ledger returns `Freed` and, in the one returned state, removes that ledger
entry and resets the cell to `"F"`; a subsequent `check_availability` on the
same coordinates reports `Available`. -/
theorem free_booked_then_available {s : SysState} {row column : Int}
    {v : String} {b : Booking}
    (hcell : getCellE s row column = .ok v)
    (hX : v ≠ "X") (hS : v ≠ "S") (hF : v ≠ "F")
    (hb : lookupRef s.bookings v = some b) :
    ∃ s', free_seat s row column = (FreeResult.Freed, s') ∧
      s'.bookings = eraseRef s.bookings v ∧
      lookupRef s'.bookings v = none ∧
      getCellE s' row column = .ok "F" ∧
      check_availability s' row column = .ok QueryResult.Available := by
  obtain ⟨r, c, h7, h4, _⟩ := getCellE_ok_inv hcell
  refine ⟨_, free_seat_booked_eq hcell hX hS hF hb, rfl, lookupRef_erase_self s.bookings v, ?_, ?_⟩
  · exact getCellE_of_seating_set rfl h7 h7 rfl h4
  · exact check_availability_free (getCellE_of_seating_set rfl h7 h7 rfl h4)

/-- C4 witness: booking (0, 0) of the fresh system with the spec's concrete
scenario data. -/
theorem book_free_then_check_taken_witness :
    ∃ s', book_seat initState 0 0 "P123" "Ann" "Lee" rngA 1 =
        some (BookResult.Booked "AAAAAAAA", s') ∧
      check_availability s' 0 0 =
        Except.ok (QueryResult.Taken "AAAAAAAA" "P123" "Ann" "Lee") := by
  have hfree : getCellE initState 0 0 = Except.ok "F" := by decide
  have hgen : generate_unique_booking_reference initState.bookings rngA 1 =
      some "AAAAAAAA" := by decide
  exact book_free_then_check_taken (by decide) (by decide) (by decide) (by decide) hfree hgen

/-- C5 witness: freeing seat (0, 0) of the state where it was just booked. -/
theorem free_booked_then_available_witness :
    ∃ s', free_seat sBooked00 0 0 = (FreeResult.Freed, s') ∧
      s'.bookings = eraseRef sBooked00.bookings "AAAAAAAA" ∧
      lookupRef s'.bookings "AAAAAAAA" = none ∧
      getCellE s' 0 0 = Except.ok "F" ∧
      check_availability s' 0 0 = Except.ok QueryResult.Available := by
  have hcell : getCellE sBooked00 0 0 = Except.ok "AAAAAAAA" := by decide
  have hb : lookupRef sBooked00.bookings "AAAAAAAA" =
      some ⟨"P123", "Ann", "Lee", 0, 0⟩ := by decide
  exact free_booked_then_available hcell (by decide) (by decide) (by decide) hb

/-- C6 fails on the code: with seat (6, 0) booked (a reachable state), the
out-of-bounds address (-1, 0) wraps to that cell, so `free_seat` returns
`Freed` — not `AlreadyFreeOrInvalid` — and mutates both the ledger (entry
removed) and the grid (cell (6, 0) reset to free). -/
theorem free_out_of_bounds_mutates_eval :
    Reachable sBooked60 ∧
    sBooked60.bookings ≠ [] ∧
    getCellL sBooked60 6 0 = some "AAAAAAAA" ∧
    (free_seat sBooked60 (-1) 0).1 = FreeResult.Freed ∧
    (free_seat sBooked60 (-1) 0).2.bookings = [] ∧
    getCellL (free_seat sBooked60 (-1) 0).2 6 0 = some "F" := by
  have hbook : book_seat initState 6 0 "P" "A" "L" rngA 1 =
      some (BookResult.Booked "AAAAAAAA", sBooked60) := by decide
  exact ⟨Reachable.book Reachable.init hbook, by decide, by decide, by decide,
    by decide, by decide⟩

/-- C7: freeing a seat whose cell holds a booking reference that is absent
from the ledger returns `BookingNotFound` and leaves the entire state — the
grid cell included — unchanged. -/
theorem free_missing_ref_not_found {s : SysState} {row column : Int} {v : String}
    (hcell : getCellE s row column = .ok v)
    (hX : v ≠ "X") (hS : v ≠ "S") (hF : v ≠ "F")
    (habs : lookupRef s.bookings v = none) :
    free_seat s row column = (FreeResult.BookingNotFound, s) := by
  simp [free_seat, is_seat_valid_of_ok hcell hX hS, hcell, hF, habs]

/-- C7 witness: the corrupted state `sCorrupt` at (0, 0). -/
theorem free_missing_ref_not_found_witness :
    free_seat sCorrupt 0 0 = (FreeResult.BookingNotFound, sCorrupt) := by
  have hcell : getCellE sCorrupt 0 0 = Except.ok "ZZZZZZZZ" := by decide
  exact free_missing_ref_not_found hcell (by decide) (by decide) (by decide) (by decide)

/-- C8: every reference the generator returns is an 8-character string over
{A–Z, 0–9} and is not a key of the ledger passed to the call; generating
references in sequence, recording each in the ledger before the next call,
yields pairwise-distinct strings. -/
theorem references_fresh_and_distinct :
    (∀ (bookings : Ledger) (rng : Nat → Draw) (fuel : Nat) (r : String),
      generate_unique_booking_reference bookings rng fuel = some r →
      r.length = 8 ∧
      (∀ ch ∈ r.data, ('A' ≤ ch ∧ ch ≤ 'Z') ∨ ('0' ≤ ch ∧ ch ≤ '9')) ∧
      lookupRef bookings r = none) ∧
    (∀ (rngs : Nat → Nat → Draw) (b : Booking) (fuel : Nat) (n : Nat)
      (bookings : Ledger) (l : List String),
      genMany bookings rngs b fuel n = some l →
      l.length = n ∧ l.Nodup ∧
      ∀ r ∈ l, r.length = 8 ∧ lookupRef bookings r = none) := by
  have hsingle : ∀ (bookings : Ledger) (rng : Nat → Draw) (fuel : Nat) (r : String),
      generate_unique_booking_reference bookings rng fuel = some r →
      r.length = 8 ∧
      (∀ ch ∈ r.data, ('A' ≤ ch ∧ ch ≤ 'Z') ∨ ('0' ≤ ch ∧ ch ≤ '9')) ∧
      lookupRef bookings r = none := by
    intro bookings rng fuel r h
    obtain ⟨hfresh, i, hi⟩ := generate_some h
    subst hi
    exact ⟨encodeRef_length _, encodeRef_chars _, hfresh⟩
  refine ⟨hsingle, ?_⟩
  intro rngs b fuel n
  induction n generalizing rngs with
  | zero =>
    intro bookings l h
    simp only [genMany, Option.some.injEq] at h
    subst h
    simp
  | succ m ih =>
    intro bookings l h
    simp only [genMany] at h
    split at h
    · simp at h
    · rename_i r hg
      simp only [Option.map_eq_some'] at h
      obtain ⟨l', hl', hcons⟩ := h
      subst hcons
      obtain ⟨hlen, hnodup, hmem⟩ := ih (fun k => rngs (k + 1)) (insertRef bookings r b) l' hl'
      obtain ⟨hfresh, i, hi⟩ := generate_some hg
      refine ⟨by simp [hlen], ?_, ?_⟩
      · refine List.nodup_cons.mpr ⟨?_, hnodup⟩
        intro hmemr
        have hcontra := (hmem r hmemr).2
        rw [lookupRef_insert_self] at hcontra
        exact absurd hcontra (by simp)
      · intro x hx
        rcases List.mem_cons.mp hx with hxr | hxl
        · subst hxr
          exact ⟨by rw [hi]; exact encodeRef_length _, hfresh⟩
        · obtain ⟨hx8, hxnone⟩ := hmem x hxl
          have hxner : x ≠ r := by
            intro e
            subst e
            rw [lookupRef_insert_self] at hxnone
            exact absurd hxnone (by simp)
          refine ⟨hx8, ?_⟩
          rw [← lookupRef_insert_ne bookings r b x hxner]
          exact hxnone

/-- C8 witness: one call on the empty ledger, and two sequential calls
producing the distinct references "AAAAAAAA" and "BBBBBBBB". -/
theorem references_fresh_and_distinct_witness :
    ("AAAAAAAA".length = 8 ∧
      (∀ ch ∈ "AAAAAAAA".data, ('A' ≤ ch ∧ ch ≤ 'Z') ∨ ('0' ≤ ch ∧ ch ≤ '9')) ∧
      lookupRef [] "AAAAAAAA" = none) ∧
    (["AAAAAAAA", "BBBBBBBB"].length = 2 ∧ ["AAAAAAAA", "BBBBBBBB"].Nodup ∧
      ∀ r ∈ ["AAAAAAAA", "BBBBBBBB"], r.length = 8 ∧ lookupRef [] r = none) := by
  have h1 : generate_unique_booking_reference [] rngA 1 = some "AAAAAAAA" := by decide
  have h2 : genMany [] rngSeq bkW 1 2 = some ["AAAAAAAA", "BBBBBBBB"] := by decide
  exact ⟨references_fresh_and_distinct.1 [] rngA 1 "AAAAAAAA" h1,
    references_fresh_and_distinct.2 rngSeq bkW 1 2 [] ["AAAAAAAA", "BBBBBBBB"] h2⟩

/-- C10: logical rows 5 and 6 are one shared row object, so the two rows show
equal values in every state; a successful booking at (5, c) makes
`check_availability` at (6, c) report the same booking with the same
reference and passenger fields; and a successful free through either of
(5, c) and (6, c) leaves both views of the shared cell free. -/
theorem rows_five_six_share_storage :
    (∀ (s : SysState) (c : Int), getCellL s 5 c = getCellL s 6 c) ∧
    (∀ (s s' : SysState) (c : Int) (pn fn ln ref : String) (rng : Nat → Draw) (fuel : Nat),
      book_seat s 5 c pn fn ln rng fuel = some (.Booked ref, s') →
      check_availability s' 6 c = .ok (.Taken ref pn fn ln)) ∧
    (∀ (s s' : SysState) (c : Int),
      (free_seat s 5 c = (.Freed, s') ∨ free_seat s 6 c = (.Freed, s')) →
      getCellL s' 5 c = some "F" ∧ getCellL s' 6 c = some "F") := by
  refine ⟨?_, ?_, ?_⟩
  · intro s c
    unfold getCellL getCellE
    rw [pyIdx_seven_five, pyIdx_seven_six]
    cases pyIdx 4 c with
    | none => rfl
    | some cc =>
      show (Except.ok (s.seating (physOf ⟨5, by omega⟩) cc)).toOption =
        (Except.ok (s.seating (physOf ⟨6, by omega⟩) cc)).toOption
      rw [physOf_six_eq_five]
  · intro s s' c pn fn ln ref rng fuel h
    obtain ⟨hcellF, hgen, hs⟩ := book_seat_booked_inv h
    obtain ⟨r, cc, h7, h4, _⟩ := getCellE_ok_inv hcellF
    obtain ⟨hfresh, i, hi⟩ := generate_some hgen
    have hr : r = ⟨5, by omega⟩ := by
      have := h7.symm.trans pyIdx_seven_five
      exact Option.some.inj this
    subst hr
    subst hs
    have hcell' : getCellE
        { setCellAt s 5 c ref with
            bookings := insertRef s.bookings ref ⟨pn, fn, ln, 5, c⟩ } 6 c = .ok ref :=
      getCellE_of_seating_set rfl h7 pyIdx_seven_six physOf_six_eq_five h4
    exact check_availability_taken hcell'
      (by rw [hi]; exact encodeRef_ne_X (rng i))
      (by rw [hi]; exact encodeRef_ne_S (rng i))
      (by rw [hi]; exact encodeRef_ne_F (rng i))
      (lookupRef_insert_self s.bookings ref ⟨pn, fn, ln, 5, c⟩)
  · intro s s' c h
    have hfive : ∀ (row : Int) (r : Fin 7), pyIdx 7 row = some r →
        free_seat s row c = (FreeResult.Freed, s') → physOf r = physOf ⟨5, by omega⟩ →
        getCellL s' 5 c = some "F" ∧ getCellL s' 6 c = some "F" := by
      intro row r hrow hf hphys
      obtain ⟨v, b, hcell, hF, hb, hs⟩ := free_seat_freed_inv hf
      obtain ⟨r2, cc, h7, h4, _⟩ := getCellE_ok_inv hcell
      have hr2 : r2 = r := Option.some.inj (h7.symm.trans hrow)
      subst hr2
      subst hs
      constructor
      · exact getCellL_of_seating_set rfl h7 pyIdx_seven_five (by rw [hphys]) h4
      · exact getCellL_of_seating_set rfl h7 pyIdx_seven_six
          (by rw [physOf_six_eq_five, hphys]) h4
    rcases h with h | h
    · exact hfive 5 ⟨5, by omega⟩ pyIdx_seven_five h rfl
    · exact hfive 6 ⟨6, by omega⟩ pyIdx_seven_six h physOf_six_eq_five

/-- C10 witness: booking (5, 0) of the fresh system is visible as `Taken` at
(6, 0), and freeing through (6, 0) clears the view at (5, 0). -/
theorem rows_five_six_share_storage_witness :
    check_availability sAlias 6 0 = Except.ok (QueryResult.Taken "AAAAAAAA" "P" "A" "L") ∧
    getCellL (free_seat sAlias 6 0).2 5 0 = some "F" := by
  have hbook : book_seat initState 5 0 "P" "A" "L" rngA 1 =
      some (BookResult.Booked "AAAAAAAA", sAlias) := by decide
  have hfree : free_seat sAlias 6 0 = (FreeResult.Freed, (free_seat sAlias 6 0).2) := by decide
  exact ⟨rows_five_six_share_storage.2.1 initState sAlias 0 "P" "A" "L" "AAAAAAAA" rngA 1 hbook,
    (rows_five_six_share_storage.2.2 sAlias (free_seat sAlias 6 0).2 0 (Or.inr hfree)).1⟩

/-- C1 fails on the code: after booking seat (5, 0) of the fresh system — a
reachable state — the ledger holds the new reference exactly once, but TWO
distinct grid addresses, (5, 0) and (6, 0), hold it, because rows 5 and 6
alias one list; the "exactly one cell" half of the invariant is violated. -/
theorem ledger_grid_correspondence_fails :
    Reachable sAlias ∧
    lookupRef sAlias.bookings "AAAAAAAA" = some ⟨"P", "A", "L", 5, 0⟩ ∧
    getCellL sAlias 5 0 = some "AAAAAAAA" ∧
    getCellL sAlias 6 0 = some "AAAAAAAA" ∧
    ((5, 0) : Int × Int) ≠ ((6, 0) : Int × Int) := by
  have hbook : book_seat initState 5 0 "P" "A" "L" rngA 1 =
      some (BookResult.Booked "AAAAAAAA", sAlias) := by decide
  exact ⟨Reachable.book Reachable.init hbook, by decide, by decide, by decide, by decide⟩

end SeatBooking
